import Mathlib

/-!
Shallow embedding of the ACME gateway's resource dispatch and addressing
core (`src/acme/Dispatcher.py`, `src/acme/Utils.py`).  Pure helper
functions are translated directly; the stateful dispatcher operations are
translated as explicit state-passing functions over a resource store plus
an event log recording collaborator invocations.  External collaborators
(security, registration, resource-type hooks, storage discovery), whose
code lives outside the dispatch core, are parameters collected in an
environment record.
-/

set_option maxHeartbeats 1000000

namespace Acme

/-- JSON values, as used for resource attribute dictionaries and request
payloads.  Dictionaries are association lists in insertion order, matching
Python dict semantics for the operations used by the code. -/
inductive Json where
  | null
  | str (s : String)
  | num (n : Int)
  | arr (elems : List Json)
  | obj (fields : List (String × Json))

mutual

def Json.decEq : (a b : Json) → Decidable (a = b)
  | .null, .null => isTrue rfl
  | .str a, .str b =>
    if h : a = b then isTrue (by rw [h])
    else isFalse (fun he => by cases he; exact h rfl)
  | .num a, .num b =>
    if h : a = b then isTrue (by rw [h])
    else isFalse (fun he => by cases he; exact h rfl)
  | .arr xs, .arr ys =>
    match Json.decEqL xs ys with
    | isTrue h => isTrue (by rw [h])
    | isFalse h => isFalse (fun he => by cases he; exact h rfl)
  | .obj xs, .obj ys =>
    match Json.decEqKV xs ys with
    | isTrue h => isTrue (by rw [h])
    | isFalse h => isFalse (fun he => by cases he; exact h rfl)
  | .null, .str _ | .null, .num _ | .null, .arr _ | .null, .obj _
  | .str _, .null | .str _, .num _ | .str _, .arr _ | .str _, .obj _
  | .num _, .null | .num _, .str _ | .num _, .arr _ | .num _, .obj _
  | .arr _, .null | .arr _, .str _ | .arr _, .num _ | .arr _, .obj _
  | .obj _, .null | .obj _, .str _ | .obj _, .num _ | .obj _, .arr _ =>
    isFalse (fun he => Json.noConfusion he)

def Json.decEqL : (a b : List Json) → Decidable (a = b)
  | [], [] => isTrue rfl
  | [], _ :: _ => isFalse (fun he => List.noConfusion he)
  | _ :: _, [] => isFalse (fun he => List.noConfusion he)
  | x :: xs, y :: ys =>
    match Json.decEq x y with
    | isFalse h => isFalse (fun he => by injection he with h1 _; exact h h1)
    | isTrue h1 =>
      match Json.decEqL xs ys with
      | isTrue h2 => isTrue (by rw [h1, h2])
      | isFalse h => isFalse (fun he => by injection he with _ h2; exact h h2)

def Json.decEqKV : (a b : List (String × Json)) → Decidable (a = b)
  | [], [] => isTrue rfl
  | [], _ :: _ => isFalse (fun he => List.noConfusion he)
  | _ :: _, [] => isFalse (fun he => List.noConfusion he)
  | (k1, v1) :: xs, (k2, v2) :: ys =>
    if hk : k1 = k2 then
      match Json.decEq v1 v2 with
      | isFalse h =>
        isFalse (fun he => by
          injection he with h1 _
          exact h (congrArg Prod.snd h1))
      | isTrue h1 =>
        match Json.decEqKV xs ys with
        | isTrue h2 => isTrue (by rw [hk, h1, h2])
        | isFalse h =>
          isFalse (fun he => by injection he with _ h2; exact h h2)
    else
      isFalse (fun he => by
        injection he with h1 _
        exact hk (congrArg Prod.fst h1))

end

instance : DecidableEq Json := Json.decEq

/-- A JSON dictionary (Python `dict`), keys in insertion order. -/
abbrev JObj := List (String × Json)

/-- Python `d[k] = v` on a dict: overwrite in place if the key exists,
else append. -/
def setKey (j : JObj) (k : String) (v : Json) : JObj :=
  if j.any (fun kv => kv.1 = k) then
    j.map (fun kv => if kv.1 = k then (k, v) else kv)
  else
    j ++ [(k, v)]

/-- Python `k in d` / `d[k]` lookup on a dict. -/
def getKey (j : JObj) (k : String) : Option Json :=
  (j.find? (fun kv => kv.1 = k)).map (fun kv => kv.2)

/-- Modelled from the spec: the numeric constants of `Constants.py` (not
part of the dispatch-core sources).  Only distinctness of the values
matters for the dispatch logic; the values are the oneM2M short codes
where known, arbitrary distinct numbers otherwise.  Resource types. -/
def tACP : Int := 1
def tAE : Int := 2
def tCNT : Int := 3
def tCIN : Int := 4
def tCSEBase : Int := 5
def tGRP : Int := 9
def tSUB : Int := 23
def tFCNT : Int := 28
def tGRP_FOPT : Int := 1002
def tCNT_OL : Int := 20001
def tCNT_LA : Int := 20002
def tFCNT_OL : Int := 20003
def tFCNT_LA : Int := 20004

/-- Modelled from the spec: response status codes (`Constants.py`). -/
def rcOK : Int := 2000
def rcCreated : Int := 2001
def rcDeleted : Int := 2002
def rcUpdated : Int := 2004
def rcBadRequest : Int := 4000
def rcNotFound : Int := 4004
def rcOperationNotAllowed : Int := 4005
def rcInvalidArguments : Int := 4010
def rcConflict : Int := 4105
def rcOriginatorHasNoPrivilege : Int := 4103
def rcSecurityAssociationRequired : Int := 4107
def rcInvalidChildResourceType : Int := 4108
def rcTargetNotSubscribable : Int := 5203
def rcAlreadyExists : Int := 4120
def rcNotImplemented : Int := 5001
/-- Modelled from the spec: sentinel for an uncaught exception escaping the
dispatcher (the code would crash rather than answer). -/
def rcInternalCrash : Int := 5000

/-- Modelled from the spec: permission bits (`Constants.py`). -/
def permRETRIEVE : Int := 1
def permCREATE : Int := 2
def permUPDATE : Int := 4
def permDELETE : Int := 8
def permNOTIFY : Int := 16
def permDISCOVERY : Int := 32

/-- Modelled from the spec: filter-usage and identifier-result-type
constants (`Constants.py`). -/
def fuDiscoveryCriteria : Int := 1
def fuConditionalRetrieval : Int := 2
def drtStructured : Int := 1
def drtUnstructured : Int := 2

/-- Modelled from the spec: result-content constants (`Constants.py`). -/
def rcnAttributes : Int := 1
def rcnAttributesAndChildResources : Int := 4
def rcnAttributesAndChildResourceReferences : Int := 5
def rcnChildResourceReferences : Int := 6
def rcnChildResources : Int := 8
def rcnModifiedAttributes : Int := 9

/-- A resource record as the dispatcher sees it: identifier, name, parent
id, cached structured name, type tag (`ty`), type name (`tpe`), attribute
dictionary (`json`), and the two flags the dispatcher reads. -/
structure Rsc where
  ri : String
  rn : String
  pi : Option String
  srn : Option String
  ty : Int
  tpe : String
  json : JObj
  readOnly : Bool
  isVirtual : Bool
deriving DecidableEq

/-- A record of the storage identifier index: maps between a resource id
and its structured name (`CSE.storage.identifier` /
`CSE.storage.structuredPath`). -/
structure IdRec where
  ri : String
  srn : String
deriving DecidableEq

/-!  ### Utils.py : addressing helpers  -/

/-- Utils.isSPRelative: `len(uri) >= 2 and uri[0] == "/" and uri[1] != "/"`
(None-safe). -/
def isSPRelative (uri : Option String) : Bool :=
  match uri with
  | none => false
  | some s =>
    match s.data with
    | '/' :: c :: _ => c ≠ '/'
    | _ => false

/-- Utils.isAbsolute: `uri.startswith('//')` (None-safe). -/
def isAbsolute (uri : Option String) : Bool :=
  match uri with
  | none => false
  | some s => s.startsWith "//"

/-- Utils.isCSERelative: `uri is not None and uri[0] != '/'`.  (Python
would raise on the empty string; the empty string is mapped to `false`.) -/
def isCSERelative (uri : Option String) : Bool :=
  match uri with
  | none => false
  | some s =>
    match s.data with
    | c :: _ => c ≠ '/'
    | [] => false

/-- Number of `/` characters in a string (Python `uri.count('/')`). -/
def slashCount (s : String) : Nat := s.data.count '/'

/-- Utils.isStructured. -/
def isStructured (uri : Option String) : Bool :=
  if isCSERelative uri then
    match uri with
    | some s => s.data.contains '/'
    | none => false
  else if isSPRelative uri then
    match uri with
    | some s => slashCount s > 2
    | none => false
  else if isAbsolute uri then
    match uri with
    | some s => slashCount s > 4
    | none => false
  else false

/-- `CSE.storage.identifier(ri)`: all identifier-index records for a
resource id.  Modelled from the spec: the Resource Store's id index. -/
def identifier (ids : List IdRec) (ri : String) : List IdRec :=
  ids.filter (fun rec => rec.ri = ri)

/-- `CSE.storage.structuredPath(srn)`: all identifier-index records for a
structured name.  Modelled from the spec: the Resource Store's path
index. -/
def structuredPathIdx (ids : List IdRec) (srn : String) : List IdRec :=
  ids.filter (fun rec => rec.srn = srn)

/-- Utils.structuredPath: determine the structured path of a resource from
its own name and the parent's identifier record. -/
def structuredPath (ids : List IdRec) (resource : Rsc) : String :=
  let rn := resource.rn
  if resource.ty = tCSEBase then rn
  else
    match resource.pi with
    | none => rn
    | some pi =>
      match identifier ids pi with
      | [rec] => rec.srn ++ "/" ++ rn
      | _ => rn

/-- Utils.structuredPathFromRI. -/
def structuredPathFromRI (ids : List IdRec) (ri : String) : Option String :=
  match identifier ids ri with
  | [rec] => some rec.srn
  | _ => none

/-- Utils.riFromStructuredPath. -/
def riFromStructuredPath (ids : List IdRec) (srn : String) : Option String :=
  match structuredPathIdx ids srn with
  | [rec] => some rec.ri
  | _ => none

/-- The final dispatch of Utils.retrieveIDFromPath ("Now either csi, ri or
structured is set"): `stSrn` is `riFromStructuredPath`, `stCsi` is
`riFromCSI`, both closed over the current store. -/
def finishID (stSrn stCsi : String → Option String)
    (ri csi srn : Option String) :
    Option String × Option String × Option String :=
  match ri with
  | some r => (some r, csi, srn)
  | none =>
    match srn with
    | some s => (stSrn s, csi, some s)
    | none =>
      match csi with
      | some c => (stCsi ("/" ++ c), some c, none)
      | none => (none, none, none)

/-- Utils.retrieveIDFromPath after the leading-`/` strip and the split on
`/`: classify the segment list into SP-relative, Absolute or CSE-relative
and produce the `(ri, csi, srn)` triple. -/
def retrieveIDFromPathIds (stSrn stCsi : String → Option String)
    (ids : List String) (csern cseri : String) :
    Option String × Option String × Option String :=
  match ids with
  | [] => (none, none, none)
  | i0 :: rest =>
    if i0 = "~" ∧ rest ≠ [] then          -- SP-Relative
      match rest with
      | [] => (none, none, none)
      | csi :: rest2 =>
        if rest2.head? = some csern then   -- structured
          finishID stSrn stCsi none (some csi)
            (some (String.intercalate "/" rest2))
        else if rest2.length = 1 then      -- unstructured
          finishID stSrn stCsi rest2.head? (some csi) none
        else
          (none, none, none)
    else if i0 = "_" ∧ rest.length ≥ 3 then  -- Absolute
      match rest with
      | _spi :: csi :: i3 :: rest3 =>
        if i3 = csern then                 -- structured
          finishID stSrn stCsi none (some csi)
            (some (String.intercalate "/" (i3 :: rest3)))
        else if rest3 = [] then            -- unstructured
          finishID stSrn stCsi (some i3) (some csi) none
        else
          (none, none, none)
      | _ => (none, none, none)
    else                                    -- CSE-Relative
      if ids.length = 1 ∧ (i0 ≠ csern ∨ i0 = cseri) then
        finishID stSrn stCsi (some i0) none none
      else
        finishID stSrn stCsi none none (some (String.intercalate "/" ids))

/-- Python `str.split(sep)` for a single-character separator, on the
character list. -/
def splitChar (sep : Char) : List Char → List (List Char)
  | [] => [[]]
  | c :: rest =>
    let r := splitChar sep rest
    if c = sep then [] :: r
    else
      match r with
      | h :: t => (c :: h) :: t
      | [] => [[c]]

/-- Python `id.split('/')`. -/
def splitSlash (s : String) : List String :=
  (splitChar '/' s.data).map String.mk

/-- Utils.retrieveIDFromPath: strip a leading `/`, split on `/`, classify.
(Python would raise on the empty string input; it is mapped to the
unresolvable triple.) -/
def retrieveIDFromPath (stSrn stCsi : String → Option String)
    (id : String) (csern cseri : String) :
    Option String × Option String × Option String :=
  match id.data with
  | [] => (none, none, none)
  | c :: restChars =>
    let id1 := if c = '/' then String.mk restChars else id
    retrieveIDFromPathIds stSrn stCsi (splitSlash id1) csern cseri

/-!  ### Utils.py : JSON helpers  -/

/-- Utils.findXPath: walk a `/`-separated element path through nested
dictionaries; the default (here: JSON null, Python `None`) is returned
when a segment is missing or the current value is not a dictionary. -/
def findXPathGo : Json → List String → Json
  | jsn, [] => jsn
  | jsn, p :: ps =>
    match jsn with
    | Json.obj fields =>
      match getKey fields p with
      | some v => findXPathGo v ps
      | none => Json.null
    | _ => Json.null

/-- Utils.findXPath with the default of `None`. -/
def findXPath (jsn : Json) (element : String) : Json :=
  findXPathGo jsn (splitSlash element)

/-- Utils.resourceDiff: keys of `new` whose value is new or changed
relative to `old`, internal `__…__` attributes excluded. -/
def resourceDiff (old new : JObj) : JObj :=
  new.filter (fun kv =>
    if kv.1.startsWith "__" then false
    else
      match getKey old kv.1 with
      | none => true
      | some w => decide (w ≠ kv.2))

/-!  ### Utils.py : identifier generation  -/

/-- Utils._randomID: draw candidate ids from the random source `cands`
(indexed draws) until one without the substring `fopt` appears; `fuel`
bounds the retry loop (Python retries unboundedly). -/
def randomID (cands : Nat → String) : Nat → Nat → Option String
  | 0, _ => none
  | fuel + 1, i =>
    let result := cands i
    if "fopt".data <:+: result.data then randomID cands fuel (i + 1)
    else some result

/-- The prefix part used by Utils.uniqueRN: the part of the supplied
prefix after an optional `xx:` qualifier (`prefix.split(':')`). -/
def effRNPrefix (pfx : String) : String :=
  let p := (splitChar ':' pfx.data).map String.mk
  if p.length = 2 then p.getD 1 "" else p.getD 0 ""

/-- Utils.uniqueRN: `p + "_" + _randomID()` where `p` is the prefix part
after an optional `xx:` qualifier. -/
def uniqueRN (cands : Nat → String) (fuel i : Nat) (pfx : String) :
    Option String :=
  (randomID cands fuel i).map (fun rid => effRNPrefix pfx ++ "_" ++ rid)

/-- Utils.uniqueAEI: `prefix + _randomID()`. -/
def uniqueAEI (cands : Nat → String) (fuel i : Nat) (pfx : String) :
    Option String :=
  (randomID cands fuel i).map (fun rid => pfx ++ rid)

/-!  ### Dispatcher state, events, environment  -/

/-- Collaborator invocations and store mutations, recorded in order. -/
inductive Event where
  | dbCreate (ri : String)
  | dbDelete (ri : String)
  | dbUpdate (ri : String)
  | activate (ri : String)
  | deactivate (ri : String)
  | childAdded (pri cri : String)
  | childRemoved (pri cri : String)
  | createEvent (ri : String)
  | deleteEvent (ri : String)
  | checkCreation (ri : String)
  | checkDeletion (ri : String)
  | hasAccess (originator : Option String) (ri : String) (perm : Int)
      (checkSelf : Bool)
  | discover (ri : String)
deriving DecidableEq

/-- The response body of RETRIEVE/UPDATE handlers: either a resource
(whose attribute dictionary the result shaping may have extended) or a
plain JSON dictionary. -/
inductive Body where
  | rsc (r : Rsc)
  | jsn (j : JObj)
deriving DecidableEq

/-- Process state: the persisted resource records, the identifier index,
and the log of collaborator invocations. -/
structure St where
  store : List Rsc
  ids : List IdRec
  log : List Event

/-- Append an event to the log. -/
def push (e : Event) (st : St) : St :=
  { st with log := st.log ++ [e] }

/-- Modelled from the spec: the external collaborators of the dispatch
core (Access Filter, Registration, resource-type hooks, the Discovery
query of the Resource Store, virtual-resource handlers), as pure
functions.  `activate` and `update` return the hook's verdict, status
code and the possibly mutated resource. -/
structure Env where
  csi : String
  hasAccess : Option String → Rsc → Int → Bool → Bool
  hasAccessCreate : Option String → Rsc → Option Int → Bool
  canHaveChild : Rsc → Rsc → Bool
  childWillBeAdded : Rsc → Rsc → Option String → Bool × Int
  checkResourceCreation : Rsc → Option String → Rsc → Option String × Int
  checkResourceDeletion : Rsc → Option String → Bool × Int
  activate : Rsc → Option Rsc → Option String → Bool × Int × Rsc
  update : Rsc → Json → Option String → Bool × Int × Rsc
  dbUpdateOk : Rsc → Bool
  dbUpdateFailRC : Int
  resourceFromJSON : Json → String → Option Int → Option Rsc
  virtualRetrieve : Rsc → Option Rsc × Int
  virtualCreate : Rsc → Option Rsc × Int
  virtualUpdate : Rsc → Option Body × Int
  virtualDelete : Rsc → Option Rsc × Int
  storageDiscover : Rsc → List Rsc

/-!  ### Storage operations (modelled from the spec: the Resource Store's
`put`/`delete`/`get`/`exists` contract, §6 of the spec). -/

/-- `resource.dbCreate(overwrite=False)`: refuse when a record with the
same id exists, otherwise persist. -/
def dbCreate (r : Rsc) (st : St) : Int × St :=
  if st.store.any (fun x => x.ri = r.ri) then (rcAlreadyExists, st)
  else (rcCreated, push (Event.dbCreate r.ri) { st with store := st.store ++ [r] })

/-- `resource.dbDelete()`: remove the record with this id. -/
def dbDelete (r : Rsc) (st : St) : (Option Rsc × Int) × St :=
  ((some r, rcDeleted),
    push (Event.dbDelete r.ri)
      { st with store := st.store.filter (fun x => x.ri ≠ r.ri) })

/-- `resource.dbUpdate()`: re-persist the (possibly mutated) record. -/
def dbUpdate (env : Env) (r : Rsc) (st : St) : (Option Rsc × Int) × St :=
  if env.dbUpdateOk r then
    ((some r, rcUpdated),
      push (Event.dbUpdate r.ri)
        { st with store := st.store.map (fun x => if x.ri = r.ri then r else x) })
  else ((none, env.dbUpdateFailRC), st)

/-- `parentResource.dbReload()`: read the record again from the store
(the live object is kept when the record vanished meanwhile). -/
def dbReload (r : Rsc) (st : St) : Rsc :=
  (st.store.find? (fun x => x.ri = r.ri)).getD r

/-- `resource.retrieveParentResource()`: fetch the parent record by the
`pi` reference. -/
def retrieveParentResource (r : Rsc) (st : St) : Option Rsc :=
  match r.pi with
  | none => none
  | some pi => st.store.find? (fun x => x.ri = pi)

/-- Dispatcher._retrieveResource: fetch by id or structured name; a
virtual resource (other than a fan-out point) answers through its own
handler. -/
def retrieveResourceRaw (env : Env) (ri srn : Option String) (st : St) :
    Option Rsc × Int :=
  let r : Option Rsc :=
    match ri with
    | some i => st.store.find? (fun x => x.ri = i)
    | none =>
      match srn with
      | some s => st.store.find? (fun x => x.srn = some s)
      | none => none
  match ri, srn with
  | none, none => (none, rcNotFound)
  | _, _ =>
    match r with
    | some r =>
      if r.ty ≠ tGRP_FOPT ∧ r.isVirtual then env.virtualRetrieve r
      else (some r, rcOK)
    | none => (none, rcNotFound)

/-- Dispatcher.retrieveResource: route by structured/unstructured id. -/
def retrieveResource (env : Env) (id : Option String) (st : St) :
    Option Rsc × Int :=
  if isStructured id then retrieveResourceRaw env none id st
  else retrieveResourceRaw env id none st

/-- Dispatcher.discoverResources: resolve the root (when not supplied)
and run the store's descendant query; no permission checks happen here. -/
def discoverResources (env : Env) (id : Option String)
    (rootResource : Option Rsc) (st : St) :
    (Option (List Rsc) × Int) × St :=
  match rootResource with
  | none =>
    match retrieveResource env id st with
    | (none, _) => ((none, rcNotFound), st)
    | (some rr, _) =>
      ((some (env.storageDiscover rr), rcOK), push (Event.discover rr.ri) st)
  | some rr =>
    ((some (env.storageDiscover rr), rcOK), push (Event.discover rr.ri) st)

/-- The per-resource permission-filter loop of
Dispatcher.handleRetrieveRequest (lines 96–99 and 144–147): keep the
resources the Access Filter admits, checking each one. -/
def accessFilterL (env : Env) (originator : Option String) (rs : List Rsc)
    (perm : Int) (st : St) : List Rsc × St :=
  match rs with
  | [] => ([], st)
  | r :: rest =>
    let ok := env.hasAccess originator r perm false
    let st1 := push (Event.hasAccess originator r.ri perm false) st
    let (tail, st2) := accessFilterL env originator rest perm st1
    ((if ok then r :: tail else tail), st2)

/-!  ### Dispatcher: CREATE  -/

/-- The shared tail of Dispatcher.createResource, after the
parent-compatibility check: set the structured name, persist, activate
(rolling the persist back when activation fails), re-persist, notify the
parent, emit the creation event. -/
def createResourceRest (env : Env) (resource0 : Rsc)
    (parentResource : Option Rsc) (originator : Option String) (st : St) :
    (Option Rsc × Int) × St :=
  let resource :=
    if resource0.srn = none then
      { resource0 with srn := some (structuredPath st.ids resource0) }
    else resource0
  match dbCreate resource st with
  | (rc, st1) =>
    if rc ≠ rcCreated then ((none, rc), st1)
    else
      match env.activate resource parentResource originator with
      | (ok, arc, resource2) =>
        let st2 := push (Event.activate resource.ri) st1
        if ¬ ok then
          match dbDelete resource st2 with
          | (_, st3) => ((none, arc), st3)
        else
          match dbUpdate env resource2 st2 with
          | ((none, urc), st3) =>
            match dbDelete resource2 st3 with
            | (_, st4) => ((none, urc), st4)
          | ((some r3, _), st3) =>
            let st4 :=
              match parentResource with
              | some pr =>
                let pr2 := dbReload pr st3
                push (Event.childAdded pr2.ri r3.ri) st3
              | none => st3
            let st5 := push (Event.createEvent r3.ri) st4
            ((some r3, rcCreated), st5)

/-- Dispatcher.createResource. -/
def createResource (env : Env) (resource : Rsc)
    (parentResource : Option Rsc) (originator : Option String) (st : St) :
    (Option Rsc × Int) × St :=
  match parentResource with
  | some pr =>
    if ¬ env.canHaveChild pr resource then
      if resource.ty = tSUB then ((none, rcTargetNotSubscribable), st)
      else ((none, rcInvalidChildResourceType), st)
    else createResourceRest env resource parentResource originator st
  | none => createResourceRest env resource parentResource originator st

/-- `CSE.storage.hasResource(ri, srn)`: a record with the same id or the
same structured name exists.  Modelled from the spec: the Resource
Store's `exists` query. -/
def hasResource (ri : String) (srn : Option String) (st : St) : Bool :=
  st.store.any (fun x => x.ri = ri) ||
    (match srn with
     | some s => st.store.any (fun x => x.srn = some s)
     | none => false)

/-- Dispatcher.handleCreateRequest: the CREATE preamble (content
type/declared type, parent lookup, permission, virtual redirection,
payload parsing, parent acceptance, duplicate check, registration check)
followed by `createResource`; a failed creation deregisters through the
registration collaborator's deletion check. -/
def handleCreateRequest (env : Env) (payload : Json) (id : Option String)
    (originator : Option String) (ct : Option String) (ty : Option Int)
    (st : St) : (Option Rsc × Int) × St :=
  if ct = none ∨ ty = none then ((none, rcBadRequest), st)
  else
    match retrieveResource env id st with
    | (none, _) => ((none, rcNotFound), st)
    | (some pr, _) =>
      let st1 := push (Event.hasAccess originator pr.ri permCREATE false) st
      if ¬ env.hasAccessCreate originator pr ty then
        if ty = some tAE then ((none, rcSecurityAssociationRequired), st1)
        else ((none, rcOriginatorHasNoPrivilege), st1)
      else if pr.isVirtual then (env.virtualCreate pr, st1)
      else
        match env.resourceFromJSON payload pr.ri ty with
        | none => ((none, rcBadRequest), st1)
        | some nr =>
          match env.childWillBeAdded pr nr originator with
          | (ok, wrc) =>
            if ¬ ok then ((none, wrc), st1)
            else if hasResource nr.ri nr.srn st1 then
              ((none, rcConflict), st1)
            else
              match env.checkResourceCreation nr originator pr with
              | (orig2, crc) =>
                let st2 := push (Event.checkCreation nr.ri) st1
                if crc ≠ rcOK then ((none, crc), st2)
                else
                  match createResource env nr (some pr) orig2 st2 with
                  | ((none, rc), st3) =>
                    let st4 := push (Event.checkDeletion nr.ri) st3
                    ((none, rc), st4)
                  | ((some r, rc), st3) => ((some r, rc), st3)

/-!  ### Dispatcher: DELETE  -/

/-- Dispatcher.deleteResource: optional deregistration check, deactivate,
capture the parent reference, delete from the store, emit the deletion
event, then notify the captured parent. -/
def deleteResource (env : Env) (resource : Rsc) (originator : Option String)
    (withDeregistration : Bool) (st : St) : (Option Rsc × Int) × St :=
  if withDeregistration ∧ ¬ (env.checkResourceDeletion resource originator).1
  then
    ((none, rcBadRequest), push (Event.checkDeletion resource.ri) st)
  else
    let st1 :=
      if withDeregistration then push (Event.checkDeletion resource.ri) st
      else st
    let st2 := push (Event.deactivate resource.ri) st1
    let parentResource := retrieveParentResource resource st2
    match dbDelete resource st2 with
    | ((_, rc), st3) =>
      let st4 := push (Event.deleteEvent resource.ri) st3
      let st5 :=
        match parentResource with
        | some pr => push (Event.childRemoved pr.ri resource.ri) st4
        | none => st4
      ((some resource, rc), st5)

/-- Dispatcher.handleDeleteRequest. -/
def handleDeleteRequest (env : Env) (id : Option String)
    (originator : Option String) (st : St) : (Option Rsc × Int) × St :=
  match retrieveResource env id st with
  | (none, _) => ((none, rcNotFound), st)
  | (some r, _) =>
    let st1 := push (Event.hasAccess originator r.ri permDELETE false) st
    if ¬ env.hasAccess originator r permDELETE false then
      ((none, rcOriginatorHasNoPrivilege), st1)
    else if r.isVirtual then (env.virtualDelete r, st1)
    else deleteResource env r originator true st1

/-!  ### Dispatcher: UPDATE  -/

/-- Dispatcher.updateResource: run the type-specific update hook, then
re-persist. -/
def updateResource (env : Env) (resource : Rsc) (jsn : Json)
    (doUpdateCheck : Bool) (originator : Option String) (st : St) :
    (Option Rsc × Int) × St :=
  if doUpdateCheck then
    match env.update resource jsn originator with
    | (ok, rc, resource2) =>
      if ¬ ok then ((none, rc), st)
      else dbUpdate env resource2 st
  else dbUpdate env resource st

/-- The tail of Dispatcher.handleUpdateRequest after the permission
check: delegate virtual resources, snapshot the attributes, update, and
shape the response (full attributes, modified attributes, or
not-implemented). -/
def handleUpdateRest (env : Env) (rcn : Int) (r : Rsc) (jsn : Json)
    (originator : Option String) (st : St) : (Option Body × Int) × St :=
  if r.isVirtual then (env.virtualUpdate r, st)
  else
    let jsonOrg := r.json
    match updateResource env r jsn true originator st with
    | ((none, rc), st2) => ((none, rc), st2)
    | ((some r2, rc), st2) =>
      if rcn = rcnAttributes then ((some (Body.rsc r2), rc), st2)
      else if rcn = rcnModifiedAttributes then
        let jsonNew := r2.json
        let result := [(r2.tpe, Json.obj (resourceDiff jsonOrg jsonNew))]
        (((if rc = rcUpdated then some (Body.jsn result) else none), rc), st2)
      else ((none, rcNotImplemented), st2)

/-- Dispatcher.handleUpdateRequest: resolve, reject read-only targets,
check permissions (self-privilege when the payload touches `acpi`),
then the update tail. -/
def handleUpdateRequest (env : Env) (rcn : Int) (payload : Option Json)
    (id : Option String) (originator : Option String) (ct : Option String)
    (st : St) : (Option Body × Int) × St :=
  if ct = none then ((none, rcBadRequest), st)
  else
    match retrieveResource env id st with
    | (none, _) => ((none, rcNotFound), st)
    | (some r, _) =>
      if r.readOnly then ((none, rcOperationNotAllowed), st)
      else
        match payload with
        | none => ((none, rcBadRequest), st)
        | some jsn =>
          match jsn with
          | Json.obj ((rootKey, _) :: _) =>
            let acpi := findXPath jsn (rootKey ++ "/acpi")
            if acpi ≠ Json.null then
              let updateOrDelete :=
                if acpi = Json.null then permDELETE else permUPDATE
              let st1 :=
                push (Event.hasAccess originator r.ri updateOrDelete true) st
              if ¬ env.hasAccess originator r updateOrDelete true then
                ((none, rcOriginatorHasNoPrivilege), st1)
              else handleUpdateRest env rcn r jsn originator st1
            else
              let st1 :=
                push (Event.hasAccess originator r.ri permUPDATE false) st
              if ¬ env.hasAccess originator r permUPDATE false then
                ((none, rcOriginatorHasNoPrivilege), st1)
              else handleUpdateRest env rcn r jsn originator st1
          | _ => ((none, rcInternalCrash), st)

/-!  ### Result tree builders  -/

/-- Dispatcher._resourcesToURIList: one structured path or `/csi/ri` per
resource, under the `m2m:uril` key. -/
def resourcesToURIList (env : Env) (ids : List IdRec) (resources : List Rsc)
    (drt : Int) : JObj :=
  let cseid := "/" ++ env.csi ++ "/"
  [("m2m:uril",
    Json.arr (resources.map (fun r =>
      Json.str (if drt = drtStructured then structuredPath ids r
                else cseid ++ r.ri))))]

/-- One child-reference entry of Dispatcher._resourceTreeReferences. -/
def refEntry (ids : List IdRec) (drt : Int) (r : Rsc) : Json :=
  Json.obj
    ([("nm", Json.str r.rn), ("typ", Json.num r.ty),
      ("val", Json.str (if drt = drtStructured then structuredPath ids r
                        else r.ri))] ++
     (if r.ty = tFCNT then [("spty", (getKey r.json "cnd").getD Json.null)]
      else []))

/-- Dispatcher._resourceTreeReferences: attach child references (virtual
latest/oldest children excluded) under `ch`, or under `m2m:ch` at top
level when no target resource is given. -/
def resourceTreeReferences (ids : List IdRec) (resources : List Rsc)
    (targetResource : Option JObj) (drt : Int) : JObj :=
  let target : JObj := match targetResource with
    | none => []
    | some t => t
  let tp := match targetResource with
    | none => "m2m:ch"
    | some _ => "ch"
  if resources.length = 0 then target
  else
    let t := (resources.filter (fun r =>
        decide (¬ (r.ty = tCNT_OL ∨ r.ty = tCNT_LA ∨ r.ty = tFCNT_OL ∨
                   r.ty = tFCNT_LA)))).map (refEntry ids drt)
    setKey target tp (Json.arr t)

mutual

/-- Dispatcher._resourceTreeJSON, the outer `while True` loop: run one
inner scan; when it collected resources of one type, attach their JSON
objects as an array under that type's tag (a plain dictionary store, so a
later round for the same tag overwrites) and go round again; stop when a
round collects nothing.  `fuel` bounds the iteration. -/
def treeJSON (fuel : Nat) (rri : Option String) (rs : List Rsc)
    (rootJson : JObj) : List Rsc × JObj :=
  match fuel with
  | 0 => (rs, rootJson)
  | fuel + 1 =>
    match innerRound fuel rri rs 0 none [] with
    | (rs1, []) => (rs1, rootJson)
    | (rs1, (tpe0, j0) :: restResult) =>
      treeJSON fuel rri rs1
        (setKey rootJson tpe0
          (Json.arr (((tpe0, j0) :: restResult).map (fun p => Json.obj p.2))))

/-- Dispatcher._resourceTreeJSON, the inner `while idx < len(rs)` loop:
walk the shared list by index; skip non-children of the current node and
virtual latest/oldest resources; fix the handled type at the first
eligible resource; a resource of the handled type is removed from the
shared list and recursed into (consuming its own descendants from the
same list) without advancing the index; others advance the index. -/
def innerRound (fuel : Nat) (rri : Option String) (rs : List Rsc)
    (idx : Nat) (handledTy : Option Int) (result : List (String × JObj)) :
    List Rsc × List (String × JObj) :=
  match fuel with
  | 0 => (rs, result)
  | fuel + 1 =>
    match rs[idx]? with
    | none => (rs, result)
    | some r =>
      if rri.isSome ∧ r.pi ≠ rri then
        innerRound fuel rri rs (idx + 1) handledTy result
      else if r.ty = tCNT_OL ∨ r.ty = tCNT_LA ∨ r.ty = tFCNT_OL ∨
              r.ty = tFCNT_LA then
        innerRound fuel rri rs (idx + 1) handledTy result
      else
        let hTy := handledTy.getD r.ty
        if r.ty = hTy then
          let rs1 := rs.erase r
          let (rs2, rjson) := treeJSON fuel (some r.ri) rs1 r.json
          innerRound fuel rri rs2 idx (some hTy) (result ++ [(r.tpe, rjson)])
        else
          innerRound fuel rri rs (idx + 1) (some hTy) result

end

/-- Fuel sufficient for the tree construction on a list of this size. -/
def treeFuel (rs : List Rsc) : Nat := (rs.length + 2) ^ 4

/-- `rootResource['ri'] if 'ri' in rootResource else None` for a
dictionary root. -/
def rriOf (root : JObj) : Option String :=
  match getKey root "ri" with
  | some (Json.str s) => some s
  | _ => none

/-- Dispatcher._resourceTreeJSON called with a dictionary root. -/
def resourceTreeJSONDict (rs : List Rsc) (root : JObj) : List Rsc × JObj :=
  treeJSON (treeFuel rs) (rriOf root) rs root

/-- Dispatcher._resourceTreeJSON called with a resource root (`ri` read
from the resource's attributes). -/
def resourceTreeJSONRsc (rs : List Rsc) (root : Rsc) : List Rsc × JObj :=
  treeJSON (treeFuel rs) (some root.ri) rs root.json

/-- Dispatcher._childResourceTree: build the full tree into a fresh
dictionary (so with no parent-id restriction at the top level) and copy
the resulting type arrays onto the target. -/
def childResourceTree (rs : List Rsc) (target : JObj) : JObj :=
  if rs.length = 0 then target
  else
    let result := (resourceTreeJSONDict rs []).2
    result.foldl (fun t kv => setKey t kv.1 kv.2) target

/-!  ### Dispatcher: RETRIEVE  -/

/-- The request arguments consumed by Dispatcher.handleRetrieveRequest
(the `_getArguments` parse result; filter handling and conditions are
folded into the environment's discovery query). -/
structure Args where
  fu : Int
  drt : Int
  rcn : Int

/-- Dispatcher.handleRetrieveRequest: discovery mode (filter the
discovered set per-resource with DISCOVERY permission, then shape) or
normal retrieval (RETRIEVE permission on the root; for non-trivial result
content, discover descendants and filter them per-resource with RETRIEVE
permission before shaping). -/
def handleRetrieveRequest (env : Env) (args : Args) (id : Option String)
    (originator : Option String) (st : St) : (Option Body × Int) × St :=
  if args.fu = 1 ∧ args.rcn ≠ rcnAttributes then
    if ¬ (args.rcn = rcnAttributesAndChildResourceReferences ∨
          args.rcn = rcnChildResourceReferences ∨
          args.rcn = rcnChildResources ∨
          args.rcn = rcnAttributesAndChildResources) then
      ((none, rcInvalidArguments), st)
    else
      match discoverResources env id none st with
      | ((none, _), st1) => ((none, rcNotFound), st1)
      | ((some rs, _), st1) =>
        let (allowedResources, st2) :=
          accessFilterL env originator rs permDISCOVERY st1
        if args.rcn = rcnChildResourceReferences then
          ((some (Body.jsn
              (resourceTreeReferences st2.ids allowedResources none args.drt)),
            rcOK), st2)
        else if args.rcn = rcnAttributesAndChildResourceReferences then
          match retrieveResource env id st2 with
          | (none, res) => ((none, res), st2)
          | (some resource, _) =>
            ((some (Body.rsc { resource with
                json := resourceTreeReferences st2.ids allowedResources
                  (some resource.json) args.drt }), rcOK), st2)
        else if args.rcn = rcnAttributesAndChildResources then
          match retrieveResource env id st2 with
          | (none, res) => ((none, res), st2)
          | (some resource, _) =>
            ((some (Body.rsc { resource with
                json := childResourceTree allowedResources resource.json }),
              rcOK), st2)
        else
          ((some (Body.jsn (resourceTreeJSONDict allowedResources []).2),
            rcOK), st2)
  else if args.fu = 2 ∨ args.rcn = rcnAttributes then
    match retrieveResource env id st with
    | (none, res) => ((none, res), st)
    | (some resource, res) =>
      let st1 :=
        push (Event.hasAccess originator resource.ri permRETRIEVE false) st
      if ¬ env.hasAccess originator resource permRETRIEVE false then
        ((none, rcOriginatorHasNoPrivilege), st1)
      else if args.rcn = rcnAttributes then
        ((some (Body.rsc resource), res), st1)
      else
        match discoverResources env id (some resource) st1 with
        | ((none, rc), st2) => ((none, rc), st2)
        | ((some rs, _), st2) =>
          let (result, st3) := accessFilterL env originator rs permRETRIEVE st2
          if args.rcn = rcnAttributesAndChildResources then
            ((some (Body.rsc { resource with
                json := (resourceTreeJSONRsc result resource).2 }), rcOK), st3)
          else if args.rcn = rcnAttributesAndChildResourceReferences then
            ((some (Body.rsc { resource with
                json := resourceTreeReferences st3.ids result
                  (some resource.json) args.drt }), rcOK), st3)
          else if args.rcn = rcnChildResourceReferences then
            ((some (Body.jsn (resourcesToURIList env st3.ids result args.drt)),
              rcOK), st3)
          else ((none, rcInvalidArguments), st3)
  else ((none, rcInvalidArguments), st)

/-- Recognise Access-Filter invocations in the event log. -/
def isAccessEvent : Event → Bool
  | Event.hasAccess _ _ _ _ => true
  | _ => false

/-- An intact store/index pair: every stored resource carries a structured
name; the identifier index binds its id and its structured name to each
other uniquely; and the structured name is the parent's structured name
plus the resource's own name (the CSE root's name for the root).  This is
the "ancestor chain intact" validity premise of the round-trip claim. -/
def intactStore (RS : List Rsc) (ids : List IdRec) : Bool :=
  RS.all (fun r =>
    match r.srn with
    | none => false
    | some s =>
      decide (identifier ids r.ri = [⟨r.ri, s⟩]) &&
      decide (structuredPathIdx ids s = [⟨r.ri, s⟩]) &&
      (if r.ty = tCSEBase then decide (s = r.rn)
       else
         match r.pi with
         | none => false
         | some pi =>
           match RS.find? (fun x => x.ri = pi) with
           | none => false
           | some prr =>
             match prr.srn with
             | none => false
             | some ps => decide (s = ps ++ "/" ++ r.rn)))

/-!  ### Concrete fixtures used by witnesses  -/

/-- A concrete, fully permissive environment for witness instantiation. -/
def envW : Env where
  csi := "csi"
  hasAccess := fun _ _ _ _ => true
  hasAccessCreate := fun _ _ _ => true
  canHaveChild := fun _ _ => true
  childWillBeAdded := fun _ _ _ => (true, rcOK)
  checkResourceCreation := fun _ o _ => (o, rcOK)
  checkResourceDeletion := fun _ _ => (true, rcOK)
  activate := fun r _ _ => (true, rcOK, r)
  update := fun r _ _ => (true, rcOK, r)
  dbUpdateOk := fun _ => true
  dbUpdateFailRC := rcBadRequest
  resourceFromJSON := fun _ _ _ => none
  virtualRetrieve := fun r => (some r, rcOK)
  virtualCreate := fun _ => (none, rcBadRequest)
  virtualUpdate := fun _ => (none, rcBadRequest)
  virtualDelete := fun _ => (none, rcBadRequest)
  storageDiscover := fun _ => []

/-- A concrete plain resource. -/
def rW : Rsc where
  ri := "r1"
  rn := "r1"
  pi := none
  srn := some "cse/r1"
  ty := tCNT
  tpe := "m2m:cnt"
  json := [("a", Json.num 1), ("__i__", Json.num 7)]
  readOnly := false
  isVirtual := false

/-- A concrete one-resource store state. -/
def stW : St where
  store := [rW]
  ids := []
  log := []

/-!  ## Theorems  -/

/-- Joining a one-element list is the element itself. -/
theorem intercalate_singleton (s x : String) :
    String.intercalate s [x] = x := rfl

/-- C2 counterexample: the Absolute-mode path `_/sp/csi` has only three
segments, fewer than the mode's minimum of four, yet address resolution
does not reject it as unresolvable: it falls through to CSE-relative
parsing and comes back with a structured path. -/
theorem c2_below_minimum_not_rejected :
    retrieveIDFromPath (fun _ => none) (fun _ => none) "_/sp/csi" "cse" "id1"
        = (none, none, some "_/sp/csi") ∧
      (none, none, some "_/sp/csi") ≠
        ((none, none, none) :
          Option String × Option String × Option String) := by
  decide

/-- C2 (amended): address resolution behaves mode by mode as follows.
SP-relative (`~`, minimum three segments): exactly three segments whose
third differs from the CSE's root resource-name resolve as an
unstructured resource-id; a third segment equal to the root
resource-name makes the remainder a structured path; four or more
segments with a differing third segment are rejected, as are exactly two
segments; a bare `~` falls through to CSE-relative parsing.  Absolute
(`_`, minimum four segments): the same pattern one segment later, except
that two- and three-segment `_`-paths fall through to CSE-relative
parsing and are treated as structured paths.  CSE-relative: a single
segment resolves as an unstructured id unless it names the root resource
(and is not the CSE's id), which is structured; two or more segments not
starting with `~` or `_` are a structured path. -/
theorem c2_amended (stSrn stCsi : String → Option String)
    (csern cseri : String) :
    (∀ c r, r ≠ csern →
      retrieveIDFromPathIds stSrn stCsi ["~", c, r] csern cseri
        = (some r, some c, none)) ∧
    (∀ c rest,
      retrieveIDFromPathIds stSrn stCsi ("~" :: c :: csern :: rest)
          csern cseri
        = (stSrn (String.intercalate "/" (csern :: rest)), some c,
           some (String.intercalate "/" (csern :: rest)))) ∧
    (∀ c r rest, r ≠ csern → rest ≠ [] →
      retrieveIDFromPathIds stSrn stCsi ("~" :: c :: r :: rest) csern cseri
        = (none, none, none)) ∧
    (∀ c, retrieveIDFromPathIds stSrn stCsi ["~", c] csern cseri
        = (none, none, none)) ∧
    (∀ sp c r, r ≠ csern →
      retrieveIDFromPathIds stSrn stCsi ["_", sp, c, r] csern cseri
        = (some r, some c, none)) ∧
    (∀ sp c rest,
      retrieveIDFromPathIds stSrn stCsi ("_" :: sp :: c :: csern :: rest)
          csern cseri
        = (stSrn (String.intercalate "/" (csern :: rest)), some c,
           some (String.intercalate "/" (csern :: rest)))) ∧
    (∀ sp c r rest, r ≠ csern → rest ≠ [] →
      retrieveIDFromPathIds stSrn stCsi ("_" :: sp :: c :: r :: rest)
          csern cseri
        = (none, none, none)) ∧
    (∀ x, retrieveIDFromPathIds stSrn stCsi ["_", x] csern cseri
        = (stSrn (String.intercalate "/" ["_", x]), none,
           some (String.intercalate "/" ["_", x]))) ∧
    (∀ x y, retrieveIDFromPathIds stSrn stCsi ["_", x, y] csern cseri
        = (stSrn (String.intercalate "/" ["_", x, y]), none,
           some (String.intercalate "/" ["_", x, y]))) ∧
    (∀ s0, (s0 ≠ csern ∨ s0 = cseri) →
      retrieveIDFromPathIds stSrn stCsi [s0] csern cseri
        = (some s0, none, none)) ∧
    (csern ≠ cseri →
      retrieveIDFromPathIds stSrn stCsi [csern] csern cseri
        = (stSrn csern, none, some csern)) ∧
    (∀ s0 s1 rest, s0 ≠ "~" → s0 ≠ "_" →
      retrieveIDFromPathIds stSrn stCsi (s0 :: s1 :: rest) csern cseri
        = (stSrn (String.intercalate "/" (s0 :: s1 :: rest)), none,
           some (String.intercalate "/" (s0 :: s1 :: rest)))) := by
  refine ⟨?_, ?_, ?_, ?_, ?_, ?_, ?_, ?_, ?_, ?_, ?_, ?_⟩
  · intro c r h
    simp [retrieveIDFromPathIds, finishID, h]
  · intro c rest
    simp [retrieveIDFromPathIds, finishID]
  · intro c r rest h hne
    cases rest with
    | nil => exact absurd rfl hne
    | cons a l => simp [retrieveIDFromPathIds, finishID, h]
  · intro c
    simp [retrieveIDFromPathIds, finishID]
  · intro sp c r h
    simp [retrieveIDFromPathIds, finishID, h]
  · intro sp c rest
    simp [retrieveIDFromPathIds, finishID]
  · intro sp c r rest h hne
    cases rest with
    | nil => exact absurd rfl hne
    | cons a l => simp [retrieveIDFromPathIds, finishID, h]
  · intro x
    simp [retrieveIDFromPathIds, finishID]
  · intro x y
    simp [retrieveIDFromPathIds, finishID]
  · intro s0 h
    simp [retrieveIDFromPathIds, finishID, h]
  · intro h
    simp [retrieveIDFromPathIds, finishID, h, intercalate_singleton]
  · intro s0 s1 rest h1 h2
    simp [retrieveIDFromPathIds, finishID, h1, h2]

/-- C2 amended-claim witness: a concrete exactly-at-minimum SP-relative
path resolves as an unstructured resource-id. -/
theorem c2_amended_witness :
    retrieveIDFromPathIds (fun _ => none) (fun _ => none) ["~", "c1", "r1"]
        "cse" "id1"
      = (some "r1", some "c1", none) :=
  (c2_amended (fun _ => none) (fun _ => none) "cse" "id1").1 "c1" "r1"
    (by decide)

/-- C3: evaluation of the nested full-tree builder at the failing input.
The flat list `[c, a, b]` is a genuine descendant set of the root `R`
(`a` and `b` are direct children of `R`, `c` is a child of `a`), yet the
built tree contains only `b`: the round that collected `a` (with `c`
nested inside) is overwritten by a later round for the same type tag,
because removing `c` (positioned before `a`) shifted `b` below the scan
index, deferring it to a second round.  The claim's exactly-once
placement fails. -/
theorem c3_tree_builder_drops_resources :
    resourceTreeJSONDict
        [⟨"c", "c", some "a", none, tCIN, "m2m:cin",
            [("ri", Json.str "c")], false, false⟩,
         ⟨"a", "a", some "R", none, tCNT, "m2m:cnt",
            [("ri", Json.str "a")], false, false⟩,
         ⟨"b", "b", some "R", none, tCNT, "m2m:cnt",
            [("ri", Json.str "b")], false, false⟩]
        [("ri", Json.str "R")]
      = ([], [("ri", Json.str "R"),
              ("m2m:cnt", Json.arr [Json.obj [("ri", Json.str "b")]])]) := by
  decide

/-- C7: a CREATE whose parent's `canHaveChild` check refuses the new
child fails with `TargetNotSubscribable` for a subscription child and
`InvalidChildResourceType` for every other child type, and returns the
state — in particular the store — completely unchanged, so nothing was
persisted. -/
theorem c7_rejected_child_no_persistence (env : Env) (resource pr : Rsc)
    (originator : Option String) (st : St)
    (h : env.canHaveChild pr resource = false) :
    createResource env resource (some pr) originator st
      = ((none, if resource.ty = tSUB then rcTargetNotSubscribable
                else rcInvalidChildResourceType), st) := by
  simp only [createResource, h, Bool.false_eq_true, not_false_eq_true,
    if_true]
  split <;> simp_all

/-- C7 witness: a concrete refused non-subscription child is rejected
with `InvalidChildResourceType` and the state is untouched. -/
theorem c7_witness :
    createResource { envW with canHaveChild := fun _ _ => false } rW
        (some rW) none stW
      = ((none, rcInvalidChildResourceType), stW) := by
  have h := c7_rejected_child_no_persistence
    { envW with canHaveChild := fun _ _ => false } rW rW none stW (by decide)
  simpa [rW, tCNT, tSUB] using h

/-- C4: a DELETE that passes the (optional) deregistration check removes
the target's record from the store and performs, in order: deactivation,
store deletion, the deletion event, and exactly one child-removed
callback on the parent reference captured before the deletion. -/
theorem c4_delete_removes_and_notifies (env : Env) (resource pr : Rsc)
    (originator : Option String) (withDereg : Bool) (st : St)
    (hreg : withDereg = true →
      (env.checkResourceDeletion resource originator).1 = true)
    (hpar : retrieveParentResource resource st = some pr) :
    deleteResource env resource originator withDereg st
      = ((some resource, rcDeleted),
         { store := st.store.filter (fun x => x.ri ≠ resource.ri),
           ids := st.ids,
           log := st.log ++
             (if withDereg then [Event.checkDeletion resource.ri] else []) ++
             [Event.deactivate resource.ri, Event.dbDelete resource.ri,
              Event.deleteEvent resource.ri,
              Event.childRemoved pr.ri resource.ri] }) := by
  cases withDereg with
  | false =>
    simp only [deleteResource, Bool.false_eq_true, false_and, if_false,
      if_neg, ite_false]
    simp [dbDelete, push, retrieveParentResource] at hpar ⊢
    simp [hpar]
  | true =>
    have hr := hreg rfl
    simp only [deleteResource]
    rw [if_neg (by simp [hr])]
    simp [dbDelete, push, retrieveParentResource] at hpar ⊢
    simp [hpar, hr]

/-- C4 witness: deleting a concrete resource that is recorded as its own
parent (so the captured parent reference is stale by callback time) still
removes the record and fires exactly one child-removed callback, in
order, on the captured reference. -/
theorem c4_witness :
    deleteResource envW
        { rW with pi := some "r1" } none true
        { store := [{ rW with pi := some "r1" }], ids := [], log := [] }
      = ((some { rW with pi := some "r1" }, rcDeleted),
         { store := [],
           ids := [],
           log := [Event.checkDeletion "r1", Event.deactivate "r1",
                   Event.dbDelete "r1", Event.deleteEvent "r1",
                   Event.childRemoved "r1" "r1"] }) := by
  have h := c4_delete_removes_and_notifies envW
    { rW with pi := some "r1" } { rW with pi := some "r1" } none true
    { store := [{ rW with pi := some "r1" }], ids := [], log := [] }
    (fun _ => by decide) (by decide)
  simpa [rW] using h

/-- C5: a successful UPDATE answered in the modified-attributes result
content mode returns a single object keyed by the resource's type tag
whose value is the attribute diff of the pre- and post-update snapshots;
the diff holds exactly the keys whose value is newly present or changed,
with double-underscore-prefixed internal attributes excluded. -/
theorem c5_update_modified_attributes (env : Env) (rootKey : String)
    (rootVal : Json) (restFields : List (String × Json)) (id : Option String)
    (originator : Option String) (cts : String) (st : St) (r r2 : Rsc)
    (rc0 urc : Int)
    (hret : retrieveResource env id st = (some r, rc0))
    (hro : r.readOnly = false)
    (hvirt : r.isVirtual = false)
    (h1 : env.hasAccess originator r permUPDATE true = true)
    (h2 : env.hasAccess originator r permUPDATE false = true)
    (hupd : env.update r (Json.obj ((rootKey, rootVal) :: restFields))
        originator = (true, urc, r2))
    (hdb : env.dbUpdateOk r2 = true) :
    (handleUpdateRequest env rcnModifiedAttributes
        (some (Json.obj ((rootKey, rootVal) :: restFields))) id originator
        (some cts) st).1
      = (some (Body.jsn [(r2.tpe, Json.obj (resourceDiff r.json r2.json))]),
         rcUpdated) ∧
    ∀ k v, (k, v) ∈ resourceDiff r.json r2.json ↔
      ((k, v) ∈ r2.json ∧ k.startsWith "__" = false ∧
        getKey r.json k ≠ some v) := by
  constructor
  · by_cases hacpi : findXPath (Json.obj ((rootKey, rootVal) :: restFields))
        (rootKey ++ "/acpi") = Json.null
    · simp [handleUpdateRequest, hret, hro, hacpi, h2, handleUpdateRest,
        hvirt, updateResource, hupd, dbUpdate, hdb, rcnModifiedAttributes,
        rcnAttributes, rcUpdated]
    · simp [handleUpdateRequest, hret, hro, hacpi, h1, handleUpdateRest,
        hvirt, updateResource, hupd, dbUpdate, hdb, rcnModifiedAttributes,
        rcnAttributes, rcUpdated]
  · intro k v
    simp only [resourceDiff, List.mem_filter]
    cases hs : k.startsWith "__" <;> cases hgk : getKey r.json k <;>
      simp [hs, hgk]

/-- C5 witness: a concrete successful modified-attributes UPDATE returns
the diff object. -/
theorem c5_witness :
    (handleUpdateRequest
        { envW with update := fun r _ _ =>
            (true, rcOK, { r with json := [("a", Json.num 2), ("b", Json.num 3)] }) }
        rcnModifiedAttributes
        (some (Json.obj [("m2m:cnt", Json.obj [("a", Json.num 2)])]))
        (some "r1") (some "o") (some "ct") stW).1
      = (some (Body.jsn [("m2m:cnt",
          Json.obj (resourceDiff rW.json
            [("a", Json.num 2), ("b", Json.num 3)]))]), rcUpdated) := by
  have h := (c5_update_modified_attributes
    { envW with update := fun r _ _ =>
        (true, rcOK, { r with json := [("a", Json.num 2), ("b", Json.num 3)] }) }
    "m2m:cnt" (Json.obj [("a", Json.num 2)]) [] (some "r1") (some "o") "ct"
    stW rW { rW with json := [("a", Json.num 2), ("b", Json.num 3)] }
    rcOK rcOK (by decide) (by decide) (by decide) (by decide) (by decide)
    (by decide) (by decide)).1
  simpa [rW] using h

/-- Every branch of the update tail only appends to the event log. -/
theorem handleUpdateRest_log (env : Env) (rcn : Int) (r : Rsc) (jsn : Json)
    (originator : Option String) (st : St) :
    ∃ l, ((handleUpdateRest env rcn r jsn originator st).2).log
      = st.log ++ l := by
  by_cases hv : r.isVirtual
  · exact ⟨[], by simp [handleUpdateRest, hv]⟩
  · rcases hu : env.update r jsn originator with ⟨ok, rc, r2⟩
    cases ok with
    | false => exact ⟨[], by simp [handleUpdateRest, hv, updateResource, hu]⟩
    | true =>
      by_cases hdb : env.dbUpdateOk r2
      · refine ⟨[Event.dbUpdate r2.ri], ?_⟩
        have hur : updateResource env r jsn true originator st
            = ((some r2, rcUpdated),
               push (Event.dbUpdate r2.ri)
                 { st with
                   store := st.store.map (fun x => if x.ri = r2.ri then r2 else x) }) := by
          simp [updateResource, hu, dbUpdate, hdb]
        simp only [handleUpdateRest, hv, Bool.false_eq_true, if_false,
          ite_false, hur]
        split_ifs <;> simp [push]
      · refine ⟨[], ?_⟩
        have hur : updateResource env r jsn true originator st
            = ((none, env.dbUpdateFailRC), st) := by
          simp [updateResource, hu, dbUpdate, hdb]
        simp only [handleUpdateRest, hv, Bool.false_eq_true, if_false,
          ite_false, hur]
        simp

/-- C6: when the UPDATE payload carries the `acpi` attribute, the
authorization query is made with the UPDATE/DELETE permission (in fact
UPDATE — the DELETE alternative in the source is unreachable) and
self-privilege evaluation; without `acpi` it is a plain UPDATE check; a
refusal returns `OriginatorHasNoPrivilege` in either case. -/
theorem c6_update_acpi_self_privilege (env : Env) (rootKey : String)
    (rootVal : Json) (restFields : List (String × Json)) (id : Option String)
    (originator : Option String) (cts : String) (st : St) (r : Rsc)
    (rc0 : Int)
    (hret : retrieveResource env id st = (some r, rc0))
    (hro : r.readOnly = false) :
    (∀ rcn,
      findXPath (Json.obj ((rootKey, rootVal) :: restFields))
          (rootKey ++ "/acpi") ≠ Json.null →
      env.hasAccess originator r permUPDATE true = false →
      handleUpdateRequest env rcn
          (some (Json.obj ((rootKey, rootVal) :: restFields))) id originator
          (some cts) st
        = ((none, rcOriginatorHasNoPrivilege),
           push (Event.hasAccess originator r.ri permUPDATE true) st)) ∧
    (∀ rcn,
      findXPath (Json.obj ((rootKey, rootVal) :: restFields))
          (rootKey ++ "/acpi") ≠ Json.null →
      ∃ l, ((handleUpdateRequest env rcn
          (some (Json.obj ((rootKey, rootVal) :: restFields))) id originator
          (some cts) st).2).log
        = st.log ++ Event.hasAccess originator r.ri permUPDATE true :: l) ∧
    (∀ rcn,
      findXPath (Json.obj ((rootKey, rootVal) :: restFields))
          (rootKey ++ "/acpi") = Json.null →
      env.hasAccess originator r permUPDATE false = false →
      handleUpdateRequest env rcn
          (some (Json.obj ((rootKey, rootVal) :: restFields))) id originator
          (some cts) st
        = ((none, rcOriginatorHasNoPrivilege),
           push (Event.hasAccess originator r.ri permUPDATE false) st)) ∧
    (∀ rcn,
      findXPath (Json.obj ((rootKey, rootVal) :: restFields))
          (rootKey ++ "/acpi") = Json.null →
      ∃ l, ((handleUpdateRequest env rcn
          (some (Json.obj ((rootKey, rootVal) :: restFields))) id originator
          (some cts) st).2).log
        = st.log ++ Event.hasAccess originator r.ri permUPDATE false :: l) := by
  refine ⟨?_, ?_, ?_, ?_⟩
  · intro rcn hacpi hacc
    simp [handleUpdateRequest, hret, hro, hacpi, hacc]
  · intro rcn hacpi
    by_cases hacc : env.hasAccess originator r permUPDATE true
    · obtain ⟨l, hl⟩ := handleUpdateRest_log env rcn r
        (Json.obj ((rootKey, rootVal) :: restFields)) originator
        (push (Event.hasAccess originator r.ri permUPDATE true) st)
      refine ⟨l, ?_⟩
      simp only [handleUpdateRequest, hret, hro]
      simp only [hacpi, hacc, if_true, ite_true, not_true, if_false]
      simp only [ne_eq, hacpi, not_false_eq_true, ite_true, ite_false,
        if_neg, hacc, not_true_eq_false, if_false] at hl ⊢
      simp_all [push]
    · refine ⟨[], ?_⟩
      have hacc2 : env.hasAccess originator r permUPDATE true = false := by
        simpa using hacc
      simp [handleUpdateRequest, hret, hro, hacpi, hacc2, push]
  · intro rcn hacpi hacc
    simp [handleUpdateRequest, hret, hro, hacpi, hacc]
  · intro rcn hacpi
    by_cases hacc : env.hasAccess originator r permUPDATE false
    · obtain ⟨l, hl⟩ := handleUpdateRest_log env rcn r
        (Json.obj ((rootKey, rootVal) :: restFields)) originator
        (push (Event.hasAccess originator r.ri permUPDATE false) st)
      refine ⟨l, ?_⟩
      simp only [handleUpdateRequest, hret, hro]
      simp_all [push]
    · refine ⟨[], ?_⟩
      have hacc2 : env.hasAccess originator r permUPDATE false = false := by
        simpa using hacc
      simp [handleUpdateRequest, hret, hro, hacpi, hacc2, push]

/-- C6 witness: a concrete `acpi`-carrying UPDATE whose self-privilege
check refuses is answered with `OriginatorHasNoPrivilege`, the query
having been made with UPDATE permission and the self flag. -/
theorem c6_witness :
    handleUpdateRequest { envW with hasAccess := fun _ _ _ _ => false }
        rcnAttributes
        (some (Json.obj [("m2m:cnt",
          Json.obj [("acpi", Json.arr [Json.str "acp1"])])]))
        (some "r1") (some "o") (some "ct") stW
      = ((none, rcOriginatorHasNoPrivilege),
         push (Event.hasAccess (some "o") "r1" permUPDATE true) stW) := by
  have h := (c6_update_acpi_self_privilege
    { envW with hasAccess := fun _ _ _ _ => false } "m2m:cnt"
    (Json.obj [("acpi", Json.arr [Json.str "acp1"])]) [] (some "r1")
    (some "o") "ct" stW rW rcOK (by decide) (by decide)).1 rcnAttributes
    (by decide) (by decide)
  simpa [rW] using h

/-- C9: over any intact store/index pair, resolving a resource's
structured path to a resource-id and recomputing the structured path of
the resolved resource round-trips. -/
theorem c9_structured_path_roundtrip (RS : List Rsc) (ids : List IdRec)
    (h : intactStore RS ids = true) :
    ∀ r ∈ RS, ∀ s, r.srn = some s →
      riFromStructuredPath ids s = some r.ri ∧ structuredPath ids r = s := by
  intro r hr s hs
  have hp := (List.all_eq_true.mp h) r hr
  rw [hs] at hp
  simp only [Bool.and_eq_true, decide_eq_true_eq] at hp
  obtain ⟨⟨hid, hsp⟩, hrest⟩ := hp
  constructor
  · simp [riFromStructuredPath, hsp]
  · by_cases hcse : r.ty = tCSEBase
    · rw [if_pos hcse] at hrest
      simp only [decide_eq_true_eq] at hrest
      simp [structuredPath, hcse, hrest]
    · rw [if_neg hcse] at hrest
      rcases hpi : r.pi with _ | pi
      · simp [hpi] at hrest
      · rcases hfind : RS.find? (fun x => x.ri = pi) with _ | prr
        · simp [hpi, hfind] at hrest
        · rcases hps : prr.srn with _ | ps
          · simp [hpi, hfind, hps] at hrest
          · simp only [hpi, hfind, hps, decide_eq_true_eq] at hrest
            have hprmem : prr ∈ RS := List.mem_of_find?_eq_some hfind
            have hprri : prr.ri = pi := by
              have := List.find?_some hfind
              simpa using this
            have hpp := (List.all_eq_true.mp h) prr hprmem
            rw [hps] at hpp
            simp only [Bool.and_eq_true, decide_eq_true_eq] at hpp
            obtain ⟨⟨hid2, _⟩, _⟩ := hpp
            rw [hprri] at hid2
            simp [structuredPath, hcse, hpi, hid2, hrest]

/-- C9 witness: a concrete two-resource store (CSE root and one child)
with a matching identifier index round-trips the child's structured
path. -/
theorem c9_witness :
    riFromStructuredPath [⟨"id1", "cse"⟩, ⟨"r2", "cse/x"⟩] "cse/x"
        = some "r2" ∧
      structuredPath [⟨"id1", "cse"⟩, ⟨"r2", "cse/x"⟩]
          ⟨"r2", "x", some "id1", some "cse/x", tCNT, "m2m:cnt", [], false,
            false⟩
        = "cse/x" :=
  c9_structured_path_roundtrip
    [⟨"id1", "cse", none, some "cse", tCSEBase, "m2m:cb", [], true, false⟩,
     ⟨"r2", "x", some "id1", some "cse/x", tCNT, "m2m:cnt", [], false,
       false⟩]
    [⟨"id1", "cse"⟩, ⟨"r2", "cse/x"⟩] (by decide)
    ⟨"r2", "x", some "id1", some "cse/x", tCNT, "m2m:cnt", [], false, false⟩
    (by decide) "cse/x" rfl

/-- A prefix of a list split around a distinguished element that the
pattern avoids stays within the left part. -/
theorem prefix_append_single {α : Type} (pat u v : List α) (c : α)
    (h : pat <+: u ++ c :: v) (hc : c ∉ pat) : pat <+: u := by
  induction u generalizing pat with
  | nil =>
    cases pat with
    | nil => exact List.nil_prefix
    | cons p ps =>
      rcases List.cons_prefix_cons.mp h with ⟨rfl, _⟩
      exact absurd (List.mem_cons_self _ _) hc
  | cons x u' ih =>
    cases pat with
    | nil => exact List.nil_prefix
    | cons p ps =>
      rcases List.cons_prefix_cons.mp h with ⟨rfl, hps⟩
      exact List.cons_prefix_cons.mpr
        ⟨rfl, ih ps hps (fun hm => hc (List.mem_cons_of_mem _ hm))⟩

/-- An infix of a list split around a distinguished element that the
pattern avoids lies wholly in the left or wholly in the right part. -/
theorem infix_append_single {α : Type} (pat a b : List α) (c : α)
    (h : pat <:+: a ++ c :: b) (hc : c ∉ pat) :
    pat <:+: a ∨ pat <:+: b := by
  induction a with
  | nil =>
    rcases List.infix_cons_iff.mp h with hpre | hinf
    · cases pat with
      | nil => exact Or.inl List.nil_infix
      | cons p ps =>
        rcases List.cons_prefix_cons.mp hpre with ⟨rfl, _⟩
        exact absurd (List.mem_cons_self _ _) hc
    · exact Or.inr hinf
  | cons x a' ih =>
    rcases List.infix_cons_iff.mp h with hpre | hinf
    · exact Or.inl (prefix_append_single pat (x :: a') b c hpre hc).isInfix
    · rcases ih hinf with h1 | h2
      · exact Or.inl (List.infix_cons h1)
      · exact Or.inr h2

/-- Every identifier the retry loop of Utils._randomID returns is free of
the substring `fopt`. -/
theorem randomID_no_fopt (cands : Nat → String) :
    ∀ fuel i s, randomID cands fuel i = some s →
      ¬ "fopt".data <:+: s.data := by
  intro fuel
  induction fuel with
  | zero => intro i s h; exact absurd h (by simp [randomID])
  | succ n ih =>
    intro i s h
    by_cases hc : "fopt".data <:+: (cands i).data
    · exact ih (i + 1) s (by simpa [randomID, hc] using h)
    · have hs : s = cands i := by
        simp [randomID, hc] at h
        exact h.symm
      rw [hs]; exact hc

/-- C10 counterexample: an AE-ID produced by uniqueAEI can contain the
substring `fopt` even though its random portion never does — the prefix
boundary can complete the pattern (prefix `Sf` followed by a random id
starting `opt…`). -/
theorem c10_uniqueAEI_can_contain_fopt :
    uniqueAEI (fun _ => "optAAAA") 1 0 "Sf" = some "SfoptAAAA" ∧
      "fopt".data <:+: "SfoptAAAA".data := by
  constructor
  · decide
  · decide

/-- C10 (amended): every identifier produced by _randomID excludes the
substring `fopt`; every resource name from uniqueRN excludes `fopt`
provided the effective prefix part (after the `:` split) does not itself
contain `fopt` (the `_` separator blocks any straddling occurrence); and
every AE-ID from uniqueAEI with the default prefix `S` excludes
`fopt`. -/
theorem c10_generated_ids_exclude_fopt :
    (∀ cands fuel i s, randomID cands fuel i = some s →
      ¬ "fopt".data <:+: s.data) ∧
    (∀ cands fuel i pfx s,
      ¬ "fopt".data <:+: (effRNPrefix pfx).data →
      uniqueRN cands fuel i pfx = some s →
      ¬ "fopt".data <:+: s.data) ∧
    (∀ cands fuel i s, uniqueAEI cands fuel i "S" = some s →
      ¬ "fopt".data <:+: s.data) := by
  refine ⟨fun c f i s h => randomID_no_fopt c f i s h, ?_, ?_⟩
  · intro cands fuel i pfx s hp h
    match hr : randomID cands fuel i with
    | none => simp [uniqueRN, hr] at h
    | some rid =>
      have hs : s = effRNPrefix pfx ++ "_" ++ rid := by
        simp [uniqueRN, hr] at h
        exact h.symm
      have hrid := randomID_no_fopt cands fuel i rid hr
      intro hinf
      rw [hs] at hinf
      have hd : (effRNPrefix pfx ++ "_" ++ rid).data
          = (effRNPrefix pfx).data ++ '_' :: rid.data := by
        simp [String.data_append]
      rw [hd] at hinf
      rcases infix_append_single _ _ _ _ hinf (by decide) with h1 | h2
      · exact hp h1
      · exact hrid h2
  · intro cands fuel i s h
    match hr : randomID cands fuel i with
    | none => simp [uniqueAEI, hr] at h
    | some rid =>
      have hs : s = "S" ++ rid := by
        simp [uniqueAEI, hr] at h
        exact h.symm
      have hrid := randomID_no_fopt cands fuel i rid hr
      intro hinf
      rw [hs] at hinf
      have hd : ("S" ++ rid).data = 'S' :: rid.data := by
        simp [String.data_append]
      rw [hd, show ("fopt".data = ['f', 'o', 'p', 't']) from rfl] at hinf
      rcases List.infix_cons_iff.mp hinf with hpre | h2
      · rcases List.cons_prefix_cons.mp hpre with ⟨hfe, _⟩
        exact absurd hfe (by decide)
      · exact hrid (by
          simpa [show ("fopt".data = ['f', 'o', 'p', 't']) from rfl] using h2)

/-- C10 amended-claim witness: a concrete uniqueAEI draw with the default
prefix yields an id that the theorem certifies `fopt`-free. -/
theorem c10_amended_witness :
    uniqueAEI (fun _ => "abc") 1 0 "S" = some "Sabc" ∧
      ¬ "fopt".data <:+: "Sabc".data :=
  ⟨by decide,
   c10_generated_ids_exclude_fopt.2.2 (fun _ => "abc") 1 0 "Sabc"
     (by decide)⟩

/-- Filtering away an id that no list element carries keeps the list. -/
theorem filter_ri_ne_of_any_false (l : List Rsc) (ri : String)
    (h : l.any (fun x => x.ri = ri) = false) :
    l.filter (fun x => x.ri ≠ ri) = l := by
  induction l with
  | nil => rfl
  | cons a t ih =>
    simp only [List.any_cons, Bool.or_eq_false_iff, decide_eq_false_iff_not]
      at h
    rw [List.filter_cons, if_pos (by simp [h.1]), ih (by simpa using h.2)]

/-- C1: a CREATE whose target was persisted but whose activation hook
then fails deletes the just-persisted record again (the store is exactly
as before, no orphan), invokes the registration collaborator's deletion
check, sends no child-added notification to the parent, and returns the
activation's failure code. -/
theorem c1_create_activation_rollback (env : Env) (payload : Json)
    (id : Option String) (originator orig2 : Option String) (cts : String)
    (ty : Int) (st : St) (pr nr nr2 : Rsc) (rc0 wrc arc : Int) (s0 : String)
    (hret : retrieveResource env id st = (some pr, rc0))
    (hacc : env.hasAccessCreate originator pr (some ty) = true)
    (hvirt : pr.isVirtual = false)
    (hjson : env.resourceFromJSON payload pr.ri (some ty) = some nr)
    (hwill : env.childWillBeAdded pr nr originator = (true, wrc))
    (hdup : hasResource nr.ri nr.srn st = false)
    (hreg : env.checkResourceCreation nr originator pr = (orig2, rcOK))
    (hchild : env.canHaveChild pr nr = true)
    (hsrn : nr.srn = some s0)
    (hact : env.activate nr (some pr) orig2 = (false, arc, nr2)) :
    handleCreateRequest env payload id originator (some cts) (some ty) st
      = ((none, arc),
         { store := st.store,
           ids := st.ids,
           log := st.log ++
             [Event.hasAccess originator pr.ri permCREATE false,
              Event.checkCreation nr.ri, Event.dbCreate nr.ri,
              Event.activate nr.ri, Event.dbDelete nr.ri,
              Event.checkDeletion nr.ri] }) := by
  have hri : st.store.any (fun x => x.ri = nr.ri) = false := by
    simp only [hasResource, hsrn, Bool.or_eq_false_iff] at hdup
    exact hdup.1
  have hfil : st.store.filter (fun x => x.ri ≠ nr.ri) = st.store :=
    filter_ri_ne_of_any_false st.store nr.ri hri
  have hcre : ∀ st2 : St, st2.store = st.store →
      createResource env nr (some pr) orig2 st2
        = ((none, arc),
           { store := st.store, ids := st2.ids,
             log := st2.log ++ [Event.dbCreate nr.ri, Event.activate nr.ri,
                                Event.dbDelete nr.ri] }) := by
    intro st2 hs2
    have hne : ¬ ∃ x ∈ st.store, x.ri = nr.ri := by
      intro hex
      obtain ⟨x, hx, he⟩ := hex
      have hx2 : st.store.any (fun y => y.ri = nr.ri) = true :=
        List.any_eq_true.mpr ⟨x, hx, by simpa using he⟩
      rw [hri] at hx2
      exact Bool.false_ne_true hx2
    simp [createResource, hchild, createResourceRest, hsrn, dbCreate, hs2,
      push, hact, dbDelete, hne, hfil, List.filter_append,
      List.append_assoc]
    exact fun a ha he => hne ⟨a, ha, he⟩
  simp only [handleCreateRequest, hret, hacc, hvirt, hjson, hwill, hreg]
  have hdup1 : hasResource nr.ri nr.srn
      (push (Event.hasAccess originator pr.ri permCREATE false) st)
      = false := hdup
  simp only [hdup1, Bool.false_eq_true, if_false, ite_false]
  rw [hcre _ (by rfl)]
  simp [push, List.append_assoc]

/-- C1 witness: a concrete CREATE whose activation fails rolls back the
persist, deregisters, notifies no parent, and returns the activation's
code. -/
theorem c1_witness :
    handleCreateRequest
        { envW with
          resourceFromJSON := fun _ pri _ =>
            some { rW with
              ri := "n1", rn := "n1", pi := some pri, srn := some "cse/r1/n1" }
          activate := fun r _ _ => (false, rcBadRequest, r) }
        (Json.obj []) (some "r1") (some "o") (some "ct") (some tCNT) stW
      = ((none, rcBadRequest),
         { store := [rW],
           ids := [],
           log := [Event.hasAccess (some "o") "r1" permCREATE false,
                   Event.checkCreation "n1", Event.dbCreate "n1",
                   Event.activate "n1", Event.dbDelete "n1",
                   Event.checkDeletion "n1"] }) := by
  have h := c1_create_activation_rollback
    { envW with
      resourceFromJSON := fun _ pri _ =>
        some { rW with
          ri := "n1", rn := "n1", pi := some pri, srn := some "cse/r1/n1" }
      activate := fun r _ _ => (false, rcBadRequest, r) }
    (Json.obj []) (some "r1") (some "o") (some "o") "ct" tCNT stW rW
    { rW with
      ri := "n1", rn := "n1", pi := some "r1", srn := some "cse/r1/n1" }
    { rW with
      ri := "n1", rn := "n1", pi := some "r1", srn := some "cse/r1/n1" }
    rcOK rcOK rcBadRequest "cse/r1/n1"
    (by decide) (by decide) (by decide) (by decide) (by decide) (by decide)
    (by decide) (by decide) (by decide) (by decide)
  simpa [stW, rW] using h

/-- The permission-filter loop keeps exactly the resources the Access
Filter admits and logs one access query per input resource, in order. -/
theorem accessFilterL_eq (env : Env) (originator : Option String)
    (rs : List Rsc) (perm : Int) (st : St) :
    accessFilterL env originator rs perm st
      = (rs.filter (fun r => env.hasAccess originator r perm false),
         { st with log := st.log ++
             rs.map (fun r => Event.hasAccess originator r.ri perm false) }) := by
  induction rs generalizing st with
  | nil => simp [accessFilterL]
  | cons r rest ih =>
    simp only [accessFilterL, ih, push, List.filter_cons, List.map_cons]
    by_cases hacc : env.hasAccess originator r perm false <;>
      simp [hacc, List.append_assoc]

/-- The resource lookup reads only the store, never the event log. -/
theorem retrieveResource_log (env : Env) (id : Option String) (st : St)
    (l : List Event) :
    retrieveResource env id { st with log := l }
      = retrieveResource env id st := rfl

/-- C8: the discovery query itself performs no permission checks (its log
delta holds no Access-Filter events); every discovery-mode RETRIEVE (all
four allowed result-content modes) checks exactly the resources returned
by the store query, each once, with DISCOVERY permission, and shapes the
body from exactly that filtered set; every descendant-augmenting normal
RETRIEVE checks the root with RETRIEVE permission and then each
discovered resource once with RETRIEVE permission, building the response
from exactly that filtered set. -/
theorem c8_discovery_permission_filtering (env : Env)
    (originator : Option String) :
    (∀ id rootResource st,
      ((discoverResources env id rootResource st).2).log.filter isAccessEvent
        = st.log.filter isAccessEvent) ∧
    (∀ args id st root rc0, args.fu = 1 → args.rcn = rcnChildResources →
      retrieveResource env id st = (some root, rc0) →
      handleRetrieveRequest env args id originator st
        = ((some (Body.jsn (resourceTreeJSONDict
              ((env.storageDiscover root).filter
                (fun r => env.hasAccess originator r permDISCOVERY false))
              []).2), rcOK),
           { st with log := (st.log ++ Event.discover root.ri ::
               (env.storageDiscover root).map
                 (fun r =>
                   Event.hasAccess originator r.ri permDISCOVERY false)) })) ∧
    (∀ args id st root rc0, args.fu = 1 →
      (args.rcn = rcnAttributesAndChildResourceReferences ∨
       args.rcn = rcnChildResourceReferences ∨
       args.rcn = rcnChildResources ∨
       args.rcn = rcnAttributesAndChildResources) →
      retrieveResource env id st = (some root, rc0) →
      ((handleRetrieveRequest env args id originator st).2).log
        = (st.log ++ Event.discover root.ri ::
            (env.storageDiscover root).map
              (fun r =>
                Event.hasAccess originator r.ri permDISCOVERY false))) ∧
    (∀ args id st root rc0, args.fu = 2 →
      args.rcn = rcnAttributesAndChildResources →
      retrieveResource env id st = (some root, rc0) →
      env.hasAccess originator root permRETRIEVE false = true →
      handleRetrieveRequest env args id originator st
        = ((some (Body.rsc { root with
              json := (resourceTreeJSONRsc
                ((env.storageDiscover root).filter
                  (fun r => env.hasAccess originator r permRETRIEVE false))
                root).2 }), rcOK),
           { st with log := (st.log ++
               Event.hasAccess originator root.ri permRETRIEVE false ::
               Event.discover root.ri ::
               (env.storageDiscover root).map
                 (fun r =>
                   Event.hasAccess originator r.ri permRETRIEVE false)) })) ∧
    (∀ args id st root rc0, args.fu = 2 →
      (args.rcn = rcnAttributesAndChildResources ∨
       args.rcn = rcnAttributesAndChildResourceReferences ∨
       args.rcn = rcnChildResourceReferences) →
      retrieveResource env id st = (some root, rc0) →
      env.hasAccess originator root permRETRIEVE false = true →
      ((handleRetrieveRequest env args id originator st).2).log
        = (st.log ++
            Event.hasAccess originator root.ri permRETRIEVE false ::
            Event.discover root.ri ::
            (env.storageDiscover root).map
              (fun r =>
                Event.hasAccess originator r.ri permRETRIEVE false))) := by
  refine ⟨?_, ?_, ?_, ?_, ?_⟩
  · intro id rootResource st
    cases rootResource with
    | some rr => simp [discoverResources, push, List.filter_append, isAccessEvent]
    | none =>
      rcases hr : retrieveResource env id st with ⟨ro, rc⟩
      cases ro with
      | none => simp [discoverResources, hr]
      | some rr =>
        simp [discoverResources, hr, push, List.filter_append, isAccessEvent]
  · intro args id st root rc0 hfu hrcn hroot
    obtain ⟨fu, drt, rcn⟩ := args
    simp only at hfu hrcn
    subst hfu hrcn
    simp only [handleRetrieveRequest, rcnChildResources, rcnAttributes,
      rcnAttributesAndChildResourceReferences, rcnChildResourceReferences,
      rcnAttributesAndChildResources]
    norm_num
    simp only [discoverResources, hroot, accessFilterL_eq, push]
    simp [rcnChildResources, rcnChildResourceReferences,
      rcnAttributesAndChildResourceReferences,
      rcnAttributesAndChildResources, resourceTreeJSONDict,
      List.append_assoc]
  · intro args id st root rc0 hfu hrcn hroot
    obtain ⟨fu, drt, rcn⟩ := args
    simp only at hfu hrcn
    subst hfu
    rcases hrcn with h | h | h | h <;> subst h <;>
      · simp only [handleRetrieveRequest, rcnChildResources, rcnAttributes,
          rcnAttributesAndChildResourceReferences,
          rcnChildResourceReferences, rcnAttributesAndChildResources]
        norm_num
        simp only [discoverResources, hroot, accessFilterL_eq, push,
          retrieveResource_log, List.append_assoc]
        simp [rcnChildResources, rcnChildResourceReferences,
          rcnAttributesAndChildResourceReferences,
          rcnAttributesAndChildResources, hroot, retrieveResource_log,
          List.append_assoc]
  · intro args id st root rc0 hfu hrcn hroot hacc
    obtain ⟨fu, drt, rcn⟩ := args
    simp only at hfu hrcn
    subst hfu hrcn
    simp only [handleRetrieveRequest, rcnAttributesAndChildResources,
      rcnAttributes]
    norm_num
    simp only [hroot, push, hacc, discoverResources, accessFilterL_eq]
    simp [rcnAttributesAndChildResources, rcnAttributes,
      resourceTreeJSONRsc, List.append_assoc, hacc]
  · intro args id st root rc0 hfu hrcn hroot hacc
    obtain ⟨fu, drt, rcn⟩ := args
    simp only at hfu hrcn
    subst hfu
    rcases hrcn with h | h | h <;> subst h <;>
      · simp only [handleRetrieveRequest, rcnChildResources, rcnAttributes,
          rcnAttributesAndChildResourceReferences,
          rcnChildResourceReferences, rcnAttributesAndChildResources]
        norm_num
        simp only [hroot, push, hacc, discoverResources, accessFilterL_eq,
          retrieveResource_log, List.append_assoc]
        simp [rcnChildResources, rcnChildResourceReferences,
          rcnAttributesAndChildResourceReferences,
          rcnAttributesAndChildResources, hacc, List.append_assoc]

/-- C8 witness: a concrete discovery-mode RETRIEVE whose store query
returns one resource checks it with DISCOVERY permission and builds the
child-resource body from the filtered set. -/
theorem c8_witness :
    handleRetrieveRequest { envW with storageDiscover := fun _ => [rW] }
        ⟨1, 1, rcnChildResources⟩ (some "r1") (some "o") stW
      = ((some (Body.jsn (resourceTreeJSONDict [rW] []).2), rcOK),
         { store := [rW], ids := [],
           log := [Event.discover "r1",
                   Event.hasAccess (some "o") "r1" permDISCOVERY false] }) := by
  have h := (c8_discovery_permission_filtering
    { envW with storageDiscover := fun _ => [rW] } (some "o")).2.1
    ⟨1, 1, rcnChildResources⟩ (some "r1") stW rW rcOK rfl rfl (by decide)
  simpa [stW, rW, envW] using h

end Acme
